import Mathlib

/-!
Shallow embedding of the protect/reveal benchmarking harness
(`protect_reveal` package: `client.py`, `utils.py`, `runner.py`).

JSON bodies are modelled by the inductive `Json`; Python `None` and JSON
`null` are both `Json.null`.  Python dictionaries are association lists
whose iteration order is the list order (Python dicts preserve insertion
order); keys are assumed unique, and lookup takes the first binding.
-/

/-- A JSON value as produced by `response.json()`: null, integers, strings,
arrays and objects (mappings).  Booleans and floats are not used by the
harness's fixtures and are omitted from the model. -/
inductive Json where
  | null : Json
  | int : Int → Json
  | str : String → Json
  | arr : List Json → Json
  | obj : List (String × Json) → Json
deriving Repr

/-- Python truthiness of a JSON value (`bool(x)`): `None`, `0`, the empty
string, the empty list and the empty dict are falsy. -/
def truthy : Json → Bool
  | .null => false
  | .int n => n != 0
  | .str s => !s.isEmpty
  | .arr xs => !xs.isEmpty
  | .obj kvs => !kvs.isEmpty

/-- Python `a or b`: `a` if `a` is truthy, else `b`. -/
def pyOr (a b : Json) : Json := if truthy a then a else b

/-- Membership test `k in d` on a dict. -/
def hasKey (kvs : List (String × Json)) (k : String) : Bool :=
  kvs.any (fun kv => kv.1 == k)

/-- Python `d[k]` / `d.get(k)` on a dict whose key is present; yields
`Json.null` (Python `None`) when the key is absent, like `d.get(k)`. -/
def pyGet (kvs : List (String × Json)) (k : String) : Json :=
  match kvs.find? (fun kv => kv.1 == k) with
  | some kv => kv.2
  | none => .null

mutual
/-- Python `repr` of a JSON value (string escaping elided: the harness only
reprs strings without quotes or backslashes). -/
def pyRepr : Json → String
  | .null => "None"
  | .int n => toString n
  | .str s => "'" ++ s ++ "'"
  | .arr xs => "[" ++ String.intercalate ", " (pyReprList xs) ++ "]"
  | .obj kvs => "\x7b" ++ String.intercalate ", " (pyReprObj kvs) ++ "\x7d"

/-- `repr` of each element of a JSON array. -/
def pyReprList : List Json → List String
  | [] => []
  | x :: xs => pyRepr x :: pyReprList xs

/-- `repr` of each binding of a JSON object. -/
def pyReprObj : List (String × Json) → List String
  | [] => []
  | kv :: kvs => ("'" ++ kv.1 ++ "': " ++ pyRepr kv.2) :: pyReprObj kvs
end

/-- Python `str(x)` of a JSON value: a string is returned as-is, anything
else as its `repr`. -/
def pyStr (j : Json) : String :=
  match j with
  | .str s => s
  | _ => pyRepr j

/-- `client.py::APIResponse`: HTTP status (absent on transport failure) and
parsed JSON body. -/
structure APIResponse where
  status_code : Option Int
  body : Json
deriving Repr

/-- `client.py::ProtectRevealClient.extract_protected_from_protect_response`:
`body.get("protected_data") or body.get("protected") or body.get("token")`,
`None` (here `Json.null`) when the body is not a mapping. -/
def extract_protected_from_protect_response (body : Json) : Json :=
  match body with
  | .obj kvs =>
      pyOr (pyGet kvs "protected_data")
        (pyOr (pyGet kvs "protected") (pyGet kvs "token"))
  | _ => .null

/-- `client.py::ProtectRevealClient.extract_restored_from_reveal_response`:
first candidate key present in the mapping wins; `None` if the body is not
a mapping or no candidate key is present. -/
def extract_restored_from_reveal_response (body : Json) : Json :=
  match body with
  | .obj kvs =>
      match ["data", "original", "plain", "revealed", "unprotected_data",
             "unprotected", "decrypted"].find? (fun k => hasKey kvs k) with
      | some k => pyGet kvs k
      | none => .null
  | _ => .null

/-- `k in body and isinstance(body[k], list)`: the value of `k` when the key
is present and holds a JSON array, else `none`. -/
def getList (kvs : List (String × Json)) (k : String) : Option (List Json) :=
  if hasKey kvs k then
    match pyGet kvs k with
    | .arr xs => some xs
    | _ => none
  else none

/-- Inner loop shared by the `protected_data_array`, `results` and
`data_array` branches: keep the mapping elements carrying key `k` and
stringify that field, skipping everything else. -/
def extractDictField (k : String) (xs : List Json) : List String :=
  xs.filterMap (fun j =>
    match j with
    | .obj kvs => if hasKey kvs k then some (pyStr (pyGet kvs k)) else none
    | _ => none)

/-- `client.py::extract_protected_list_from_protect_response`: list body →
stringify elements; mapping body → `protected_data` list, else
`protected_data_array` list of mappings, else `results` list of mappings;
anything else → `[]`. -/
def extract_protected_list_from_protect_response (body : Json) : List String :=
  match body with
  | .arr xs => xs.map pyStr
  | .obj kvs =>
      match getList kvs "protected_data" with
      | some xs => xs.map pyStr
      | none =>
          match getList kvs "protected_data_array" with
          | some xs => extractDictField "protected_data" xs
          | none =>
              match getList kvs "results" with
              | some xs => extractDictField "protected_data" xs
              | none => []
  | _ => []

/-- The `results` inner loop of the reveal-bulk extractor: for each mapping
element, its first present field among `data`, `restored`, `value`
(stringified); non-mappings and mappings lacking all three are skipped. -/
def extractResultsItem (j : Json) : Option String :=
  match j with
  | .obj kvs =>
      match ["data", "restored", "value"].find? (fun k => hasKey kvs k) with
      | some k => some (pyStr (pyGet kvs k))
      | none => none
  | _ => none

/-- The last-resort loop of the reveal-bulk extractor: every value of the
top-level mapping that is a string or an integer, stringified, in dict
iteration order. -/
def scalarValue (j : Json) : Option String :=
  match j with
  | .str s => some s
  | .int n => some (toString n)
  | _ => none

/-- `client.py::extract_restored_list_from_reveal_response`: list body →
stringify elements; mapping body → first of `data`, `restored`, `items`
holding a list (stringify elements), else `results` list (field extraction
per element), else `data_array` list of mappings (their `data` field), else
every scalar value of the mapping; anything else → `[]`. -/
def extract_restored_list_from_reveal_response (body : Json) : List String :=
  match body with
  | .arr xs => xs.map pyStr
  | .obj kvs =>
      match ["data", "restored", "items"].findSome? (getList kvs) with
      | some xs => xs.map pyStr
      | none =>
          match getList kvs "results" with
          | some xs => xs.filterMap extractResultsItem
          | none =>
              match getList kvs "data_array" with
              | some xs => extractDictField "data" xs
              | none => kvs.filterMap (fun kv => scalarValue kv.2)
  | _ => []

/-- Python `s.isdigit()` restricted to ASCII: non-empty and every character
a decimal digit. -/
def isPyDigitStr (s : String) : Bool :=
  !s.isEmpty && s.data.all Char.isDigit

/-- Numeric value of a decimal character. -/
def digitVal (c : Char) : Nat := c.toNat - 48

/-- Python `int(s)` on a digit-only string. -/
def strToNat (s : String) : Nat :=
  s.data.foldl (fun a c => 10 * a + digitVal c) 0

/-- The decimal digit character for `d < 10`. -/
def decDigitChar (d : Nat) : Char :=
  match d with
  | 0 => '0' | 1 => '1' | 2 => '2' | 3 => '3' | 4 => '4'
  | 5 => '5' | 6 => '6' | 7 => '7' | 8 => '8' | _ => '9'

/-- Decimal rendering of `n`, most significant digit first; `[]` for `0`.
The first argument is structural fuel (any bound of at least `n` works). -/
def natToDecAux : Nat → Nat → List Char
  | 0, _ => []
  | fuel + 1, n =>
      if n = 0 then []
      else natToDecAux fuel (n / 10) ++ [decDigitChar (n % 10)]

/-- Python `str(n)` for a natural number. -/
def natToDec (n : Nat) : List Char :=
  if n = 0 then ['0'] else natToDecAux n n

/-- Python `f"{n:0{w}d}"`: decimal rendering left-padded with zeros to
width `w` (never truncated). -/
def padZeros (w : Nat) (l : List Char) : List Char :=
  List.replicate (w - l.length) '0' ++ l

/-- `utils.py::increment_numeric_string`: validate with `isdigit`, add one,
re-render zero-padded to the original width.  The `ValueError` raise is
modelled as `Except.error`. -/
def increment_numeric_string (s : String) : Except String String :=
  if isPyDigitStr s then
    .ok (String.mk (padZeros s.length (natToDec (strToNat s + 1))))
  else
    .error "data must be a numeric string"

/-- The decimal character rendering of `str(n)` for an integer status
code (a leading minus sign for negatives). -/
def intDecChars (n : Int) : List Char :=
  if n < 0 then '-' :: natToDec n.natAbs else natToDec n.toNat

/-- `APIResponse.is_success`:
`bool(self.status_code and str(self.status_code).startswith("2"))` — the
status is truthy and its decimal rendering starts with the character `2`
(the prefix `"2"` is a single character, so this is a head test). -/
def APIResponse.is_success (r : APIResponse) : Bool :=
  match r.status_code with
  | none => false
  | some n =>
      if n = 0 then false
      else
        match intDecChars n with
        | c :: _ => c == '2'
        | [] => false

/-- The transport and configuration a runner needs: `post_json` is the
HTTP oracle (`url`, JSON payload → `APIResponse`; in `client.py` it never
raises, converting transport failures into a response), plus the fixed
endpoint URLs and the policy name computed at client construction. -/
structure Client where
  post_json : String → Json → APIResponse
  protect_url : String
  reveal_url : String
  protect_bulk_url : String
  reveal_bulk_url : String
  policy : String

/-- `runner.py::IterationResult` (the wall-clock field is outside the
functional model and omitted). -/
structure IterationResult where
  data : String
  protect_response : APIResponse
  reveal_response : APIResponse
  protected_token : Json
  restored : Json

/-- `runner.py::run_iteration`: protect with `{protection_policy_name,
data}`, extract the token, then always reveal with `{protection_policy_name,
protected_data: protected_token or ""}`. -/
def run_iteration (c : Client) (data : String) : IterationResult :=
  let protect_payload : Json :=
    .obj [("protection_policy_name", .str c.policy), ("data", .str data)]
  let protect_response := c.post_json c.protect_url protect_payload
  let protected_token :=
    extract_protected_from_protect_response protect_response.body
  let reveal_payload : Json :=
    .obj [("protection_policy_name", .str c.policy),
          ("protected_data", pyOr protected_token (.str ""))]
  let reveal_response := c.post_json c.reveal_url reveal_payload
  let restored := extract_restored_from_reveal_response reveal_response.body
  { data := data
    protect_response := protect_response
    reveal_response := reveal_response
    protected_token := protected_token
    restored := restored }

/-- `runner.py::BulkIterationResult` (wall-clock field omitted). -/
structure BulkIterationResult where
  inputs : List String
  protect_response : APIResponse
  reveal_response : APIResponse
  protected_tokens : List String
  restored_values : List String

/-- `client.py::ProtectRevealClient.protect_bulk`: POST to the bulk protect
endpoint with both `data` and `data_array` compatibility keys. -/
def protect_bulk (c : Client) (items : List String) : APIResponse :=
  c.post_json c.protect_bulk_url
    (.obj [("protection_policy_name", .str c.policy),
           ("data", .arr (items.map .str)),
           ("data_array", .arr (items.map .str))])

/-- `client.py::ProtectRevealClient.reveal_bulk` on a list of string tokens
(the runner always passes strings): simple-list and Thales-style keys. -/
def reveal_bulk (c : Client) (protected_items : List String) : APIResponse :=
  c.post_json c.reveal_bulk_url
    (.obj [("protection_policy_name", .str c.policy),
           ("protected_data", .arr (protected_items.map .str)),
           ("protected_array", .arr (protected_items.map .str)),
           ("protected_data_array",
            .arr (protected_items.map
              (fun p => .obj [("protected_data", .str p)])))])

/-- The batches visited by `for i in range(0, len(inputs), batch_size)`
with `batch = inputs[i : i + batch_size]`, for `batch_size ≥ 1`.  The first
argument is structural fuel; `inputs.length` is enough since every step
consumes at least one element. -/
def chunksAux (bs : Nat) : Nat → List String → List (List String)
  | _, [] => []
  | 0, _ :: _ => []
  | fuel + 1, x :: xs => ((x :: xs).take bs) :: chunksAux bs fuel ((x :: xs).drop bs)

/-- The batch decomposition of `inputs` at batch size `bs ≥ 1`. -/
def chunks (bs : Nat) (inputs : List String) : List (List String) :=
  chunksAux bs inputs.length inputs

/-- One loop body of `runner.py::run_bulk_iteration`: bulk-protect the
batch, extract tokens, bulk-reveal the tokens, extract restored values.
`post_json` never raises, so the `except APIError` arms never run. -/
def runBulkBatch (c : Client) (batch : List String) : BulkIterationResult :=
  let protect_resp := protect_bulk c batch
  let protected_list :=
    extract_protected_list_from_protect_response protect_resp.body
  let reveal_resp := reveal_bulk c protected_list
  let restored_list :=
    extract_restored_list_from_reveal_response reveal_resp.body
  { inputs := batch
    protect_response := protect_resp
    reveal_response := reveal_resp
    protected_tokens := protected_list
    restored_values := restored_list }

/-- `runner.py::run_bulk_iteration`: `range(0, len(inputs), 0)` raises
`ValueError` (modelled as `Except.error`); otherwise one
`BulkIterationResult` per contiguous batch, in order. -/
def run_bulk_iteration (c : Client) (inputs : List String) (batch_size : Nat) :
    Except String (List BulkIterationResult) :=
  if batch_size = 0 then .error "range() arg 3 must not be zero"
  else .ok ((chunks batch_size inputs).map (runBulkBatch c))

/-- First-match-wins application of an ordered list of extraction
strategies, the spec's model of the response normalizer: each strategy
either recognizes the body's shape and produces the list, or passes. -/
def tryStrategies (strategies : List (Json → Option (List String))) (body : Json) :
    List String :=
  match strategies with
  | [] => []
  | s :: rest =>
      match s body with
      | some out => out
      | none => tryStrategies rest body

/-- Spec strategy: the body itself is a sequence; every element is treated
as a token (stringified). -/
def specSeq (body : Json) : Option (List String) :=
  match body with
  | .arr xs => some (xs.map pyStr)
  | _ => none

/-- Spec strategy: a mapping with key `k` holding a sequence; each element
stringified. -/
def specKeyedSeq (k : String) (body : Json) : Option (List String) :=
  match body with
  | .obj kvs =>
      match kvs.find? (fun kv => kv.1 == k) with
      | some kv =>
          match kv.2 with
          | .arr xs => some (xs.map pyStr)
          | _ => none
      | none => none
  | _ => none

/-- Spec strategy: a mapping with key `k` holding a sequence of mappings;
each element's `field` value is extracted (stringified), other elements
are skipped. -/
def specMappingArraySeq (k field : String) (body : Json) : Option (List String) :=
  match body with
  | .obj kvs =>
      match kvs.find? (fun kv => kv.1 == k) with
      | some kv =>
          match kv.2 with
          | .arr xs =>
              some (xs.filterMap (fun j =>
                match j with
                | .obj ikvs =>
                    (ikvs.find? (fun ikv => ikv.1 == field)).map
                      (fun ikv => pyStr ikv.2)
                | _ => none))
          | _ => none
      | none => none
  | _ => none

/-- Spec strategy: a mapping whose `results` key holds a sequence; each
mapping element yields its first present field among `data`, `restored`,
`value` (stringified); other elements are skipped. -/
def specResults (body : Json) : Option (List String) :=
  match body with
  | .obj kvs =>
      match kvs.find? (fun kv => kv.1 == "results") with
      | some kv =>
          match kv.2 with
          | .arr xs =>
              some (xs.filterMap (fun j =>
                match j with
                | .obj ikvs =>
                    ["data", "restored", "value"].findSome? (fun f =>
                      (ikvs.find? (fun ikv => ikv.1 == f)).map
                        (fun ikv => pyStr ikv.2))
                | _ => none))
          | _ => none
      | none => none
  | _ => none

/-- Spec strategy (last resort): every string-or-integer value of the
top-level mapping, stringified, in iteration order. -/
def specScalars (body : Json) : Option (List String) :=
  match body with
  | .obj kvs =>
      some (kvs.filterMap (fun kv =>
        match kv.2 with
        | .str s => some s
        | .int n => some (toString n)
        | _ => none))
  | _ => none

/-- Modelled from the spec's words for protect-bulk extraction (sequence
body; `protected_data` sequence; `protected_data_array` mappings;
`results` mappings; else empty). -/
def protectBulkSpec (body : Json) : List String :=
  tryStrategies
    [specSeq,
     specKeyedSeq "protected_data",
     specMappingArraySeq "protected_data_array" "protected_data",
     specMappingArraySeq "results" "protected_data"] body

/-- The reveal-bulk extraction exactly as claimed: keys `data`, `restored`,
`results`, `items` tried in that order, then `data_array`, then the scalar
fallback. -/
def revealBulkClaimedSpec (body : Json) : List String :=
  tryStrategies
    [specSeq,
     specKeyedSeq "data",
     specKeyedSeq "restored",
     specResults,
     specKeyedSeq "items",
     specMappingArraySeq "data_array" "data",
     specScalars] body

/-- The reveal-bulk extraction with the key order the code actually uses:
`data`, `restored`, `items` (sequence-valued), then `results`, then
`data_array`, then the scalar fallback. -/
def revealBulkSpec (body : Json) : List String :=
  tryStrategies
    [specSeq,
     specKeyedSeq "data",
     specKeyedSeq "restored",
     specKeyedSeq "items",
     specResults,
     specMappingArraySeq "data_array" "data",
     specScalars] body

/-- The protect-bulk response shapes the extractor recognizes. -/
def protectShapeRecognized : Json → Bool
  | .arr _ => true
  | .obj kvs =>
      (getList kvs "protected_data").isSome
        || (getList kvs "protected_data_array").isSome
        || (getList kvs "results").isSome
  | _ => false

/-- The reveal-bulk response shapes the extractor recognizes (a mapping is
always recognized, through the scalar fallback). -/
def revealShapeRecognized : Json → Bool
  | .arr _ => true
  | .obj _ => true
  | _ => false

/-- Whether every character of the string is the digit `9`. -/
def allNines (s : String) : Bool :=
  s.data.all (fun c => c == '9')

theorem hasKey_eq_isSome (kvs : List (String × Json)) (k : String) :
    hasKey kvs k = (kvs.find? (fun kv => kv.1 == k)).isSome := by
  induction kvs with
  | nil => rfl
  | cons kv rest ih =>
      cases h : (kv.1 == k) with
      | true => simp [hasKey, List.find?_cons_of_pos, h]
      | false =>
          have hf : List.find? (fun kv => kv.1 == k) (kv :: rest)
              = List.find? (fun kv => kv.1 == k) rest := by
            rw [List.find?_cons]
            simp [h]
          simp only [hasKey, List.any_cons, h, Bool.false_or, hf]
          exact ih

theorem pyGet_eq_of_find? (kvs : List (String × Json)) (k : String)
    (kv : String × Json) (h : kvs.find? (fun kv => kv.1 == k) = some kv) :
    pyGet kvs k = kv.2 := by
  unfold pyGet
  rw [h]

theorem getList_eq_find? (kvs : List (String × Json)) (k : String) :
    getList kvs k
      = (kvs.find? (fun kv => kv.1 == k)).bind
          (fun kv => match kv.2 with | .arr xs => some xs | _ => none) := by
  unfold getList
  rw [hasKey_eq_isSome]
  cases h : kvs.find? (fun kv => kv.1 == k) with
  | none => simp
  | some kv => simp [pyGet_eq_of_find? kvs k kv h]

theorem extractDictField_eq_spec (field : String) (xs : List Json) :
    extractDictField field xs
      = xs.filterMap (fun j =>
          match j with
          | .obj ikvs =>
              (ikvs.find? (fun ikv => ikv.1 == field)).map
                (fun ikv => pyStr ikv.2)
          | _ => none) := by
  unfold extractDictField
  apply List.filterMap_congr
  intro j _
  cases j with
  | obj ikvs =>
      simp only
      rw [hasKey_eq_isSome]
      cases h : ikvs.find? (fun ikv => ikv.1 == field) with
      | none => simp
      | some kv => simp [pyGet_eq_of_find? ikvs field kv h]
  | null => rfl
  | int n => rfl
  | str s => rfl
  | arr ys => rfl

theorem findKey_bridge (keys : List String) (kvs : List (String × Json)) :
    keys.findSome? (fun f =>
        (kvs.find? (fun kv => kv.1 == f)).map (fun kv => pyStr kv.2))
      = (keys.find? (fun f => hasKey kvs f)).map (fun k => pyStr (pyGet kvs k)) := by
  induction keys with
  | nil => rfl
  | cons f keys ih =>
      rw [List.findSome?_cons, List.find?_cons]
      rw [hasKey_eq_isSome]
      cases h : kvs.find? (fun kv => kv.1 == f) with
      | none => simpa using ih
      | some kv => simp [pyGet_eq_of_find? kvs f kv h]

theorem extractResultsItem_eq_spec (j : Json) :
    extractResultsItem j
      = (match j with
         | .obj ikvs =>
             ["data", "restored", "value"].findSome? (fun f =>
               (ikvs.find? (fun ikv => ikv.1 == f)).map
                 (fun ikv => pyStr ikv.2))
         | _ => none) := by
  cases j with
  | obj ikvs =>
      simp only [extractResultsItem]
      rw [findKey_bridge]
      cases h : ["data", "restored", "value"].find? (fun k => hasKey ikvs k) with
      | none => simp
      | some k => simp
  | null => rfl
  | int n => rfl
  | str s => rfl
  | arr ys => rfl

theorem specKeyedSeq_obj (k : String) (kvs : List (String × Json)) :
    specKeyedSeq k (.obj kvs) = (getList kvs k).map (fun xs => xs.map pyStr) := by
  simp only [specKeyedSeq]
  rw [getList_eq_find?]
  cases h : kvs.find? (fun kv => kv.1 == k) with
  | none => rfl
  | some kv =>
      obtain ⟨k1, v⟩ := kv
      cases v <;> simp

theorem specMappingArraySeq_obj (k field : String) (kvs : List (String × Json)) :
    specMappingArraySeq k field (.obj kvs)
      = (getList kvs k).map (extractDictField field) := by
  simp only [specMappingArraySeq]
  rw [getList_eq_find?]
  cases h : kvs.find? (fun kv => kv.1 == k) with
  | none => rfl
  | some kv =>
      obtain ⟨k1, v⟩ := kv
      cases v <;> simp [extractDictField_eq_spec]

theorem specResults_obj (kvs : List (String × Json)) :
    specResults (.obj kvs)
      = (getList kvs "results").map (fun xs => xs.filterMap extractResultsItem) := by
  simp only [specResults]
  rw [getList_eq_find?]
  cases h : kvs.find? (fun kv => kv.1 == "results") with
  | none => rfl
  | some kv =>
      obtain ⟨k1, v⟩ := kv
      cases v <;>
        simp [List.filterMap_congr (fun j _ => (extractResultsItem_eq_spec j).symm)]

theorem specScalars_obj (kvs : List (String × Json)) :
    specScalars (.obj kvs) = some (kvs.filterMap (fun kv => scalarValue kv.2)) := by
  simp only [specScalars]
  congr 1

theorem protect_list_refines_spec (body : Json) :
    extract_protected_list_from_protect_response body = protectBulkSpec body := by
  cases body with
  | null => rfl
  | int n => rfl
  | str s => rfl
  | arr xs => rfl
  | obj kvs =>
      simp only [protectBulkSpec, tryStrategies, specSeq,
        specKeyedSeq_obj, specMappingArraySeq_obj,
        extract_protected_list_from_protect_response]
      cases h1 : getList kvs "protected_data" with
      | some xs => simp
      | none =>
          cases h2 : getList kvs "protected_data_array" with
          | some xs => simp
          | none =>
              cases h3 : getList kvs "results" with
              | some xs => simp
              | none => simp

theorem restored_list_refines_spec (body : Json) :
    extract_restored_list_from_reveal_response body = revealBulkSpec body := by
  cases body with
  | null => rfl
  | int n => rfl
  | str s => rfl
  | arr xs => rfl
  | obj kvs =>
      simp only [revealBulkSpec, tryStrategies, specSeq,
        specKeyedSeq_obj, specResults_obj, specMappingArraySeq_obj,
        specScalars_obj, extract_restored_list_from_reveal_response,
        List.findSome?_cons]
      cases h1 : getList kvs "data" with
      | some xs => simp
      | none =>
          cases h2 : getList kvs "restored" with
          | some xs => simp
          | none =>
              cases h3 : getList kvs "items" with
              | some xs => simp [List.findSome?_nil]
              | none =>
                  cases h4 : getList kvs "results" with
                  | some xs => simp [List.findSome?_nil]
                  | none =>
                      cases h5 : getList kvs "data_array" with
                      | some xs => simp [List.findSome?_nil]
                      | none => simp [List.findSome?_nil]

theorem digitVal_le_nine (c : Char) (h : c.isDigit = true) : digitVal c ≤ 9 := by
  simp [Char.isDigit, Char.le_def] at h
  obtain ⟨h1, h2⟩ := h
  have h2' : c.toNat ≤ 57 := by unfold Char.toNat; exact h2
  unfold digitVal
  omega

theorem digitVal_le_eight (c : Char) (h : c.isDigit = true) (h9 : c ≠ '9') :
    digitVal c ≤ 8 := by
  simp [Char.isDigit, Char.le_def] at h
  obtain ⟨h1, h2⟩ := h
  have h2' : c.toNat ≤ 57 := by unfold Char.toNat; exact h2
  have h1' : 48 ≤ c.toNat := by unfold Char.toNat; exact h1
  have hne : c.toNat ≠ 57 := by
    intro hc
    apply h9
    have h := Char.ofNat_toNat c
    rw [hc] at h
    rw [← h]
  unfold digitVal
  omega

theorem foldl_digits_lt (l : List Char) :
    ∀ a : Nat, (∀ c ∈ l, c.isDigit = true) →
      l.foldl (fun a c => 10 * a + digitVal c) a < 10 ^ l.length * (a + 1) := by
  induction l with
  | nil => intro a _; simp
  | cons c l ih =>
      intro a hall
      have hd : digitVal c ≤ 9 := digitVal_le_nine c (hall c (by simp))
      have hrec := ih (10 * a + digitVal c) (fun x hx => hall x (by simp [hx]))
      simp only [List.foldl_cons, List.length_cons]
      calc l.foldl (fun a c => 10 * a + digitVal c) (10 * a + digitVal c)
          < 10 ^ l.length * (10 * a + digitVal c + 1) := hrec
        _ ≤ 10 ^ l.length * (10 * (a + 1)) := by
            apply Nat.mul_le_mul_left
            omega
        _ = 10 ^ (l.length + 1) * (a + 1) := by ring

theorem foldl_all_nines (l : List Char) :
    ∀ a : Nat, (∀ c ∈ l, c = '9') →
      l.foldl (fun a c => 10 * a + digitVal c) a + 1 = 10 ^ l.length * (a + 1) := by
  induction l with
  | nil => intro a _; simp
  | cons c l ih =>
      intro a hall
      have hc : c = '9' := hall c (by simp)
      have hrec := ih (10 * a + digitVal c) (fun x hx => hall x (by simp [hx]))
      simp only [List.foldl_cons, List.length_cons]
      rw [hrec, hc]
      show 10 ^ l.length * (10 * a + digitVal '9' + 1) = 10 ^ (l.length + 1) * (a + 1)
      have h9 : digitVal '9' = 9 := rfl
      rw [h9]
      ring

theorem foldl_not_all_nines (l : List Char) :
    ∀ a : Nat, (∀ c ∈ l, c.isDigit = true) → (∃ c ∈ l, c ≠ '9') →
      l.foldl (fun a c => 10 * a + digitVal c) a + 2 ≤ 10 ^ l.length * (a + 1) := by
  induction l with
  | nil => intro a _ hex; simp at hex
  | cons c l ih =>
      intro a hall hex
      simp only [List.foldl_cons, List.length_cons]
      by_cases hc : c = '9'
      · have hex' : ∃ x ∈ l, x ≠ '9' := by
          rcases hex with ⟨x, hx, hne⟩
          rcases List.mem_cons.mp hx with h | h
          · exact absurd (h ▸ hc) hne
          · exact ⟨x, h, hne⟩
        have hrec := ih (10 * a + digitVal c)
          (fun x hx => hall x (by simp [hx])) hex'
        calc l.foldl (fun a c => 10 * a + digitVal c) (10 * a + digitVal c) + 2
            ≤ 10 ^ l.length * (10 * a + digitVal c + 1) := hrec
          _ ≤ 10 ^ l.length * (10 * (a + 1)) := by
              apply Nat.mul_le_mul_left
              have := digitVal_le_nine c (hall c (by simp))
              omega
          _ = 10 ^ (l.length + 1) * (a + 1) := by ring
      · have hd : digitVal c ≤ 8 := digitVal_le_eight c (hall c (by simp)) hc
        have hrec := foldl_digits_lt l (10 * a + digitVal c)
          (fun x hx => hall x (by simp [hx]))
        have hP : 1 ≤ 10 ^ l.length := Nat.one_le_pow _ _ (by norm_num)
        calc l.foldl (fun a c => 10 * a + digitVal c) (10 * a + digitVal c) + 2
            ≤ 10 ^ l.length * (10 * a + digitVal c + 1) + 1 := by omega
          _ ≤ 10 ^ l.length * (10 * a + 9) + 1 := by
              have : 10 * a + digitVal c + 1 ≤ 10 * a + 9 := by omega
              have := Nat.mul_le_mul_left (10 ^ l.length) this
              omega
          _ ≤ 10 ^ l.length * (10 * a + 9) + 10 ^ l.length := by omega
          _ = 10 ^ (l.length + 1) * (a + 1) := by ring

theorem decDigitChar_isDigit (d : Nat) : (decDigitChar d).isDigit = true := by
  unfold decDigitChar
  split <;> rfl

theorem natToDecAux_digits :
    ∀ (fuel n : Nat) (c : Char), c ∈ natToDecAux fuel n → c.isDigit = true := by
  intro fuel
  induction fuel with
  | zero => intro n c hc; simp [natToDecAux] at hc
  | succ fuel ih =>
      intro n c hc
      by_cases h0 : n = 0
      · simp [natToDecAux, h0] at hc
      · simp only [natToDecAux, if_neg h0, List.mem_append, List.mem_singleton] at hc
        rcases hc with h | h
        · exact ih (n / 10) c h
        · rw [h]; exact decDigitChar_isDigit (n % 10)

theorem natToDecAux_len_le :
    ∀ (fuel n w : Nat), n ≤ fuel → n < 10 ^ w → (natToDecAux fuel n).length ≤ w := by
  intro fuel
  induction fuel with
  | zero =>
      intro n w hf _
      have : n = 0 := by omega
      simp [natToDecAux]
  | succ fuel ih =>
      intro n w hf hw
      by_cases h0 : n = 0
      · simp [natToDecAux, h0]
      · cases w with
        | zero => simp at hw; omega
        | succ v =>
            have hdiv : n / 10 < 10 ^ v := by
              rw [Nat.div_lt_iff_lt_mul (by norm_num : 0 < 10)]
              calc n < 10 ^ (v + 1) := hw
                _ = 10 ^ v * 10 := by ring
            have hfl : n / 10 ≤ fuel := by
              have : n / 10 < n := Nat.div_lt_self (by omega) (by norm_num)
              omega
            have hrec := ih (n / 10) v hfl hdiv
            simp only [natToDecAux, if_neg h0, List.length_append,
              List.length_singleton]
            omega

theorem natToDecAux_len_ge :
    ∀ (fuel n w : Nat), n ≤ fuel → 10 ^ w ≤ n → w + 1 ≤ (natToDecAux fuel n).length := by
  intro fuel
  induction fuel with
  | zero =>
      intro n w hf hw
      have h1 : 1 ≤ 10 ^ w := Nat.one_le_pow _ _ (by norm_num)
      omega
  | succ fuel ih =>
      intro n w hf hw
      have h1 : 1 ≤ 10 ^ w := Nat.one_le_pow _ _ (by norm_num)
      have h0 : n ≠ 0 := by omega
      simp only [natToDecAux, if_neg h0, List.length_append, List.length_singleton]
      cases w with
      | zero => omega
      | succ v =>
          have hdiv : 10 ^ v ≤ n / 10 := by
            rw [Nat.le_div_iff_mul_le (by norm_num : 0 < 10)]
            calc 10 ^ v * 10 = 10 ^ (v + 1) := by ring
              _ ≤ n := hw
          have hfl : n / 10 ≤ fuel := by
            have : n / 10 < n := Nat.div_lt_self (by omega) (by norm_num)
            omega
          have hrec := ih (n / 10) v hfl hdiv
          omega

theorem mk_isEmpty_false (l : List Char) (h : l ≠ []) :
    (String.mk l).isEmpty = false := by
  rw [Bool.eq_false_iff]
  intro hc
  rw [String.isEmpty_iff] at hc
  exact h (congrArg String.data hc)

theorem data_ne_nil_of_isEmpty_false (s : String) (h : s.isEmpty = false) :
    s.data ≠ [] := by
  intro hd
  rw [Bool.eq_false_iff] at h
  apply h
  rw [String.isEmpty_iff]
  cases s
  simp_all

theorem padZeros_length (w : Nat) (l : List Char) :
    (padZeros w l).length = (w - l.length) + l.length := by
  simp [padZeros]

theorem padZeros_digits (w : Nat) (l : List Char)
    (hl : ∀ c ∈ l, c.isDigit = true) :
    ∀ c ∈ padZeros w l, c.isDigit = true := by
  intro c hc
  rcases List.mem_append.mp hc with h | h
  · rw [List.eq_of_mem_replicate h]; rfl
  · exact hl c h

theorem increment_ok_parts (s : String) (h : isPyDigitStr s = true) :
    1 ≤ s.length ∧ (∀ c ∈ s.data, c.isDigit = true) ∧
      increment_numeric_string s
        = .ok (String.mk (padZeros s.length (natToDec (strToNat s + 1)))) := by
  have h' := h
  simp only [isPyDigitStr, Bool.and_eq_true, Bool.not_eq_true',
    List.all_eq_true] at h'
  obtain ⟨hne, hd⟩ := h'
  have hdata : s.data ≠ [] := data_ne_nil_of_isEmpty_false s hne
  refine ⟨?_, hd, ?_⟩
  · show 1 ≤ s.data.length
    cases hl : s.data with
    | nil => exact absurd hl hdata
    | cons c l => simp
  · unfold increment_numeric_string
    rw [if_pos h]

/-- C3: for every digit-only string `s` (Python `isdigit`),
`increment_numeric_string s` succeeds with a digit-only string that keeps
the width of `s` unless `s` is all nines, in which case the result is
exactly one character longer and is returned untruncated. -/
theorem C3_increment_preserves_or_widens (s : String) (h : isPyDigitStr s = true) :
    ∃ t, increment_numeric_string s = .ok t ∧ isPyDigitStr t = true ∧
      ((allNines s = false ∧ t.length = s.length) ∨
       (allNines s = true ∧ t.length = s.length + 1)) := by
  obtain ⟨hw1, hd, heq⟩ := increment_ok_parts s h
  have hwdata : s.data.length = s.length := rfl
  have hmlt : strToNat s < 10 ^ s.length := by
    have := foldl_digits_lt s.data 0 hd
    rw [hwdata] at this
    simpa [strToNat] using this
  have hnz : ¬(strToNat s + 1 = 0) := by omega
  have hdec : natToDec (strToNat s + 1)
      = natToDecAux (strToNat s + 1) (strToNat s + 1) := by
    unfold natToDec
    rw [if_neg hnz]
  have hdigs : ∀ c ∈ natToDec (strToNat s + 1), c.isDigit = true := by
    rw [hdec]
    exact fun c hc => natToDecAux_digits _ _ c hc
  have hpaddig : ∀ c ∈ padZeros s.length (natToDec (strToNat s + 1)),
      c.isDigit = true := padZeros_digits _ _ hdigs
  have hmklen : (String.mk (padZeros s.length (natToDec (strToNat s + 1)))).length
      = (padZeros s.length (natToDec (strToNat s + 1))).length := rfl
  by_cases hall : allNines s = true
  · have hall9 : ∀ c ∈ s.data, c = '9' := by
      simp only [allNines, List.all_eq_true] at hall
      exact fun c hc => by simpa using hall c hc
    have hsum : strToNat s + 1 = 10 ^ s.length := by
      have := foldl_all_nines s.data 0 hall9
      rw [hwdata] at this
      simpa [strToNat] using this
    have hge : s.length + 1 ≤ (natToDecAux (strToNat s + 1) (strToNat s + 1)).length :=
      natToDecAux_len_ge _ _ _ (le_refl _) (by omega)
    have hle : (natToDecAux (strToNat s + 1) (strToNat s + 1)).length ≤ s.length + 1 := by
      apply natToDecAux_len_le _ _ _ (le_refl _)
      rw [hsum]
      calc 10 ^ s.length < 10 ^ s.length * 10 := by
            have h1 : 1 ≤ 10 ^ s.length := Nat.one_le_pow _ _ (by norm_num)
            omega
        _ = 10 ^ (s.length + 1) := by ring
    have hlen : (natToDec (strToNat s + 1)).length = s.length + 1 := by
      rw [hdec]
      omega
    have hplen : (padZeros s.length (natToDec (strToNat s + 1))).length
        = s.length + 1 := by
      rw [padZeros_length, hlen]
      omega
    have hpne : padZeros s.length (natToDec (strToNat s + 1)) ≠ [] := by
      intro hnil
      rw [hnil] at hplen
      simp at hplen
    refine ⟨_, heq, ?_, Or.inr ⟨hall, ?_⟩⟩
    · simp only [isPyDigitStr, Bool.and_eq_true, Bool.not_eq_true',
        List.all_eq_true]
      exact ⟨mk_isEmpty_false _ hpne, hpaddig⟩
    · rw [hmklen, hplen]
  · have hallf : allNines s = false := by
      rw [Bool.eq_false_iff]
      exact hall
    have hex : ∃ c ∈ s.data, c ≠ '9' := by
      simp only [allNines, List.all_eq_true] at hall
      push_neg at hall
      obtain ⟨c, hc, hne⟩ := hall
      exact ⟨c, hc, by simpa using hne⟩
    have hub : strToNat s + 2 ≤ 10 ^ s.length := by
      have := foldl_not_all_nines s.data 0 hd hex
      rw [hwdata] at this
      simpa [strToNat] using this
    have hle : (natToDecAux (strToNat s + 1) (strToNat s + 1)).length ≤ s.length :=
      natToDecAux_len_le _ _ _ (le_refl _) (by omega)
    have hlen : (natToDec (strToNat s + 1)).length ≤ s.length := by
      rw [hdec]
      exact hle
    have hplen : (padZeros s.length (natToDec (strToNat s + 1))).length
        = s.length := by
      rw [padZeros_length]
      omega
    have hpne : padZeros s.length (natToDec (strToNat s + 1)) ≠ [] := by
      intro hnil
      rw [hnil] at hplen
      simp at hplen
      omega
    refine ⟨_, heq, ?_, Or.inl ⟨hallf, ?_⟩⟩
    · simp only [isPyDigitStr, Bool.and_eq_true, Bool.not_eq_true',
        List.all_eq_true]
      exact ⟨mk_isEmpty_false _ hpne, hpaddig⟩
    · rw [hmklen, hplen]

/-- Witness for C3 at the all-nines input `"999"`: increment succeeds and
the result is one character wider. -/
theorem C3_increment_preserves_or_widens_witness :
    ∃ t, increment_numeric_string "999" = .ok t ∧ isPyDigitStr t = true ∧
      ((allNines "999" = false ∧ t.length = "999".length) ∨
       (allNines "999" = true ∧ t.length = "999".length + 1)) :=
  C3_increment_preserves_or_widens "999" (by decide)

/-- C7: any string containing a non-digit character makes
`increment_numeric_string` fail with the `ValueError` (modelled as
`Except.error`) instead of returning a value. -/
theorem C7_increment_rejects_non_digit (s : String) (c : Char)
    (hc : c ∈ s.data) (hnd : c.isDigit = false) :
    increment_numeric_string s = .error "data must be a numeric string" := by
  have hfalse : ¬ isPyDigitStr s = true := by
    intro htrue
    simp only [isPyDigitStr, Bool.and_eq_true, List.all_eq_true] at htrue
    have := htrue.2 c hc
    rw [hnd] at this
    exact Bool.false_ne_true this
  unfold increment_numeric_string
  rw [if_neg hfalse]

/-- Witness for C7 at the spec's example input. -/
theorem C7_increment_rejects_non_digit_witness :
    increment_numeric_string "abc123" = .error "data must be a numeric string" :=
  C7_increment_rejects_non_digit "abc123" 'a' (by decide) (by decide)

/-- C9: `increment_numeric_string` raises on the empty string although it
holds no non-digit character, and it succeeds exactly on the non-empty
digit-only strings. -/
theorem C9_increment_empty_string :
    increment_numeric_string "" = .error "data must be a numeric string"
    ∧ "".data.all Char.isDigit = true
    ∧ ∀ s : String, (∃ t, increment_numeric_string s = .ok t)
        ↔ (s.isEmpty = false ∧ s.data.all Char.isDigit = true) := by
  refine ⟨rfl, rfl, ?_⟩
  intro s
  constructor
  · rintro ⟨t, ht⟩
    by_cases h : isPyDigitStr s = true
    · simp only [isPyDigitStr, Bool.and_eq_true, Bool.not_eq_true'] at h
      exact h
    · unfold increment_numeric_string at ht
      rw [if_neg h] at ht
      cases ht
  · rintro ⟨h1, h2⟩
    have h : isPyDigitStr s = true := by
      simp only [isPyDigitStr, Bool.and_eq_true, Bool.not_eq_true']
      exact ⟨h1, h2⟩
    refine ⟨String.mk (padZeros s.length (natToDec (strToNat s + 1))), ?_⟩
    unfold increment_numeric_string
    rw [if_pos h]

/-- Witness for C9: the equivalence applied at a concrete accepted input. -/
theorem C9_increment_empty_string_witness :
    ∃ t, increment_numeric_string "007" = .ok t :=
  (C9_increment_empty_string.2.2 "007").mpr (by decide)

/-- C1 counterexample: a mapping whose `protected_data` is present but
empty (falsy) does not yield that value; the `or`-chain skips it and
returns the `protected` value instead, contradicting the claimed
first-present-key rule. -/
theorem C1_counterexample :
    extract_protected_from_protect_response
        (.obj [("protected_data", .str ""), ("protected", .str "b")])
      = .str "b"
    ∧ Json.str "b" ≠ Json.str "" := by
  refine ⟨rfl, ?_⟩
  intro hcon
  injection hcon with hs
  exact absurd hs (by decide)

/-- C1 amended: single-item extraction returns the first truthy value
among keys `protected_data`, `protected`, `token` in that priority order
(falsy present values are skipped); when the first two candidates are
falsy it returns the `token` candidate (null when absent), and a
non-mapping body yields no token. -/
theorem C1_first_truthy_wins :
    (∀ kvs : List (String × Json),
      (truthy (pyGet kvs "protected_data") = true →
        extract_protected_from_protect_response (.obj kvs)
          = pyGet kvs "protected_data")
      ∧ (truthy (pyGet kvs "protected_data") = false →
          truthy (pyGet kvs "protected") = true →
          extract_protected_from_protect_response (.obj kvs)
            = pyGet kvs "protected")
      ∧ (truthy (pyGet kvs "protected_data") = false →
          truthy (pyGet kvs "protected") = false →
          extract_protected_from_protect_response (.obj kvs)
            = pyGet kvs "token"))
    ∧ extract_protected_from_protect_response .null = .null
    ∧ (∀ n, extract_protected_from_protect_response (.int n) = .null)
    ∧ (∀ st, extract_protected_from_protect_response (.str st) = .null)
    ∧ (∀ xs, extract_protected_from_protect_response (.arr xs) = .null) := by
  refine ⟨?_, rfl, fun _ => rfl, fun _ => rfl, fun _ => rfl⟩
  intro kvs
  refine ⟨?_, ?_, ?_⟩
  · intro h1
    simp [extract_protected_from_protect_response, pyOr, h1]
  · intro h1 h2
    simp [extract_protected_from_protect_response, pyOr, h1, h2]
  · intro h1 h2
    simp [extract_protected_from_protect_response, pyOr, h1, h2]

/-- Witness for the amended C1: a falsy `protected_data` absent, truthy
`protected` present. -/
theorem C1_first_truthy_wins_witness :
    extract_protected_from_protect_response (.obj [("protected", .str "x")])
      = .str "x" :=
  ((C1_first_truthy_wins.1 [("protected", .str "x")]).2.1 rfl rfl).trans rfl

/-- C2 counterexample: with both `items` (a sequence) and `results`
present, the code returns the `items` elements, while the claimed order
(`results` before `items`) would return the `results` extraction. -/
theorem C2_counterexample :
    extract_restored_list_from_reveal_response
        (.obj [("items", .arr [.str "x"]),
               ("results", .arr [.obj [("data", .str "y")]])])
      = ["x"]
    ∧ revealBulkClaimedSpec
        (.obj [("items", .arr [.str "x"]),
               ("results", .arr [.obj [("data", .str "y")]])])
      = ["y"]
    ∧ (["x"] : List String) ≠ ["y"] := by
  refine ⟨rfl, rfl, ?_⟩
  decide

/-- C2 amended: reveal-bulk extraction tries `data`, `restored`, `items`
(sequence-valued, stringified) in that order, then `results` (mapping
elements yield their first field among `data`/`restored`/`value`; other
elements are skipped), then `data_array` (mappings' `data` field), then
the scalar fallback over the top-level mapping; the spec's `data_array`
example still extracts `["orig1", "orig2"]`. -/
theorem C2_reveal_bulk_extraction :
    (∀ body, extract_restored_list_from_reveal_response body
        = revealBulkSpec body)
    ∧ extract_restored_list_from_reveal_response
        (.obj [("data_array",
                .arr [.obj [("data", .str "orig1")],
                      .obj [("data", .str "orig2")]])])
      = ["orig1", "orig2"] :=
  ⟨restored_list_refines_spec, rfl⟩

/-- C6: protect-bulk extraction implements the spec's ordered strategy
list (sequence body; `protected_data` sequence; `protected_data_array`
mappings; `results` mappings), and the spec's example body yields
`["tok1", "tok2"]`. -/
theorem C6_protect_bulk_extraction :
    (∀ body, extract_protected_list_from_protect_response body
        = protectBulkSpec body)
    ∧ extract_protected_list_from_protect_response
        (.obj [("protected_data_array",
                .arr [.obj [("protected_data", .str "tok1")],
                      .obj [("protected_data", .str "tok2")]])])
      = ["tok1", "tok2"] :=
  ⟨protect_list_refines_spec, rfl⟩

/-- C5: the bulk extraction functions are total functions of the body
(they are Lean functions, so they cannot raise), and any body whose shape
no strategy recognizes yields the empty list. -/
theorem C5_unrecognized_shape_empty (body : Json) :
    (protectShapeRecognized body = false →
      extract_protected_list_from_protect_response body = [])
    ∧ (revealShapeRecognized body = false →
      extract_restored_list_from_reveal_response body = []) := by
  constructor
  · intro h
    cases body with
    | null => rfl
    | int n => rfl
    | str s => rfl
    | arr xs => simp [protectShapeRecognized] at h
    | obj kvs =>
        cases h1 : getList kvs "protected_data" with
        | some xs => simp [protectShapeRecognized, h1] at h
        | none =>
            cases h2 : getList kvs "protected_data_array" with
            | some xs => simp [protectShapeRecognized, h2] at h
            | none =>
                cases h3 : getList kvs "results" with
                | some xs => simp [protectShapeRecognized, h3] at h
                | none =>
                    simp [extract_protected_list_from_protect_response,
                      h1, h2, h3]
  · intro h
    cases body with
    | null => rfl
    | int n => rfl
    | str s => rfl
    | arr xs => simp [revealShapeRecognized] at h
    | obj kvs => simp [revealShapeRecognized] at h

/-- Witness for C5 at a scalar (unrecognized) body. -/
theorem C5_unrecognized_shape_empty_witness :
    protectShapeRecognized (.str "hello") = false
    ∧ extract_protected_list_from_protect_response (.str "hello") = []
    ∧ revealShapeRecognized (.str "hello") = false
    ∧ extract_restored_list_from_reveal_response (.str "hello") = [] :=
  ⟨rfl, (C5_unrecognized_shape_empty (.str "hello")).1 rfl, rfl,
   (C5_unrecognized_shape_empty (.str "hello")).2 rfl⟩

/-- C8: `run_iteration` always issues the reveal request after the protect
call; when no token was extracted the reveal payload's `protected_data`
is the empty string, and the result still carries both responses. -/
theorem C8_reveal_always_fires (c : Client) (data : String) :
    (run_iteration c data).protect_response
        = c.post_json c.protect_url
            (.obj [("protection_policy_name", .str c.policy),
                   ("data", .str data)])
    ∧ (run_iteration c data).reveal_response
        = c.post_json c.reveal_url
            (.obj [("protection_policy_name", .str c.policy),
                   ("protected_data",
                    pyOr (extract_protected_from_protect_response
                            (c.post_json c.protect_url
                              (.obj [("protection_policy_name", .str c.policy),
                                     ("data", .str data)])).body)
                      (.str ""))])
    ∧ (extract_protected_from_protect_response
          (c.post_json c.protect_url
            (.obj [("protection_policy_name", .str c.policy),
                   ("data", .str data)])).body = .null →
        (run_iteration c data).reveal_response
          = c.post_json c.reveal_url
              (.obj [("protection_policy_name", .str c.policy),
                     ("protected_data", .str "")])) := by
  refine ⟨rfl, rfl, ?_⟩
  intro h
  have e1 : (run_iteration c data).reveal_response
      = c.post_json c.reveal_url
          (.obj [("protection_policy_name", .str c.policy),
                 ("protected_data",
                  pyOr (extract_protected_from_protect_response
                          (c.post_json c.protect_url
                            (.obj [("protection_policy_name", .str c.policy),
                                   ("data", .str data)])).body)
                    (.str ""))]) := rfl
  rw [e1, h]
  rfl

/-- A fixed client whose protect response carries no token field, used to
witness the empty-string reveal payload. -/
def clientW : Client :=
  { post_json := fun url _ =>
      if url == "reveal" then ⟨some 200, .obj [("data", .str "001")]⟩
      else ⟨some 200, .obj [("status", .str "ok")]⟩
    protect_url := "protect"
    reveal_url := "reveal"
    protect_bulk_url := "protectbulk"
    reveal_bulk_url := "revealbulk"
    policy := "pol" }

/-- Witness for C8: with `clientW` no token is extracted and the reveal
request is made with the empty string. -/
theorem C8_reveal_always_fires_witness :
    (run_iteration clientW "001").reveal_response
      = clientW.post_json "reveal"
          (.obj [("protection_policy_name", .str "pol"),
                 ("protected_data", .str "")]) :=
  (C8_reveal_always_fires clientW "001").2.2 rfl

theorem chunksAux_nil (bs fuel : Nat) : chunksAux bs fuel [] = [] := by
  cases fuel <;> rfl

theorem chunksAux_join (bs : Nat) (hb : 1 ≤ bs) :
    ∀ (fuel : Nat) (xs : List String), xs.length ≤ fuel →
      (chunksAux bs fuel xs).flatten = xs := by
  intro fuel
  induction fuel with
  | zero =>
      intro xs hf
      cases xs with
      | nil => rfl
      | cons x l => simp at hf
  | succ fuel ih =>
      intro xs hf
      cases xs with
      | nil => rfl
      | cons x l =>
          have hlen : ((x :: l).drop bs).length ≤ fuel := by
            rw [List.length_drop]
            simp only [List.length_cons] at hf ⊢
            omega
          simp only [chunksAux, List.flatten_cons]
          rw [ih ((x :: l).drop bs) hlen]
          exact List.take_append_drop bs (x :: l)

theorem chunksAux_mem_length_le (bs : Nat) :
    ∀ (fuel : Nat) (xs : List String) (c : List String),
      c ∈ chunksAux bs fuel xs → c.length ≤ bs := by
  intro fuel
  induction fuel with
  | zero =>
      intro xs c hc
      cases xs with
      | nil => simp [chunksAux] at hc
      | cons x l => simp [chunksAux] at hc
  | succ fuel ih =>
      intro xs c hc
      cases xs with
      | nil => simp [chunksAux] at hc
      | cons x l =>
          simp only [chunksAux] at hc
          rcases List.mem_cons.mp hc with h | h
          · rw [h, List.length_take]
            exact Nat.min_le_left _ _
          · exact ih _ c h

theorem chunksAux_nonfinal_length (bs : Nat) :
    ∀ (fuel : Nat) (xs : List String) (i : Nat),
      i + 1 < (chunksAux bs fuel xs).length →
      ((chunksAux bs fuel xs).getD i []).length = bs := by
  intro fuel
  induction fuel with
  | zero =>
      intro xs i hi
      cases xs with
      | nil => simp [chunksAux] at hi
      | cons x l => simp [chunksAux] at hi
  | succ fuel ih =>
      intro xs i hi
      cases xs with
      | nil => simp [chunksAux] at hi
      | cons x l =>
          simp only [chunksAux, List.length_cons] at hi
          cases i with
          | zero =>
              have hrest : chunksAux bs fuel ((x :: l).drop bs) ≠ [] := by
                intro hr
                rw [hr] at hi
                simp at hi
              have hdrop : (x :: l).drop bs ≠ [] := by
                intro hd
                apply hrest
                rw [hd]
                exact chunksAux_nil bs fuel
              have hlen : bs < (x :: l).length := by
                by_contra hle
                push_neg at hle
                exact hdrop (List.drop_eq_nil_of_le hle)
              show ((chunksAux bs (fuel + 1) (x :: l)).getD 0 []).length = bs
              simp only [chunksAux, List.getD_cons_zero, List.length_take]
              omega
          | succ i =>
              show ((chunksAux bs (fuel + 1) (x :: l)).getD (i + 1) []).length = bs
              simp only [chunksAux, List.getD_cons_succ]
              exact ih _ i (by omega)

/-- C4: for batch size at least 1, `run_bulk_iteration` returns one result
per contiguous batch in order (none dropped, only the final batch may be
shorter), each result keeping its batch as `inputs` and recording the
protect response for that batch, error status included. -/
theorem C4_bulk_batches (c : Client) (inputs : List String) (bs : Nat)
    (hb : 1 ≤ bs) :
    ∃ rs, run_bulk_iteration c inputs bs = .ok rs
      ∧ rs.map (fun r => r.inputs) = chunks bs inputs
      ∧ (chunks bs inputs).flatten = inputs
      ∧ (∀ b ∈ chunks bs inputs, b.length ≤ bs)
      ∧ (∀ i, i + 1 < (chunks bs inputs).length →
          ((chunks bs inputs).getD i []).length = bs)
      ∧ ∀ r ∈ rs, r.protect_response = protect_bulk c r.inputs
          ∧ r.reveal_response = reveal_bulk c r.protected_tokens := by
  have hbs0 : ¬(bs = 0) := by omega
  refine ⟨(chunks bs inputs).map (runBulkBatch c), ?_, ?_, ?_, ?_, ?_, ?_⟩
  · unfold run_bulk_iteration
    rw [if_neg hbs0]
  · rw [List.map_map]
    have he : ((fun r => BulkIterationResult.inputs r) ∘ runBulkBatch c)
        = fun b => b := by
      funext b
      rfl
    rw [he]
    exact List.map_id _
  · exact chunksAux_join bs hb inputs.length inputs (le_refl _)
  · intro b hb2
    exact chunksAux_mem_length_le bs inputs.length inputs b hb2
  · intro i hi
    exact chunksAux_nonfinal_length bs inputs.length inputs i hi
  · intro r hr
    rcases List.mem_map.mp hr with ⟨b, _, hbeq⟩
    constructor
    · rw [← hbeq]
      rfl
    · rw [← hbeq]
      rfl

/-- A fixed client reproducing the partial-failure test: the protect-bulk
endpoint succeeds for the batch starting at `"001"` and returns HTTP 500
for every other batch. -/
def clientW4 : Client :=
  { post_json := fun url payload =>
      if url == "protectbulk" then
        match payload with
        | .obj [_, ("data", .arr (Json.str "001" :: _)), _] =>
            ⟨some 200,
             .obj [("protected_data_array",
                    .arr [.obj [("protected_data", .str "tok1")],
                          .obj [("protected_data", .str "tok2")]])]⟩
        | _ => ⟨some 500, .obj [("error", .str "server error")]⟩
      else
        ⟨some 200,
         .obj [("data_array",
                .arr [.obj [("data", .str "orig1")],
                      .obj [("data", .str "orig2")]])]⟩
    protect_url := "protect"
    reveal_url := "reveal"
    protect_bulk_url := "protectbulk"
    reveal_bulk_url := "revealbulk"
    policy := "pol" }

/-- Witness for C4: four inputs at batch size 2 give the two batches, and
the failing second batch is still present with its 500 status recorded. -/
theorem C4_bulk_batches_witness :
    ∃ rs, run_bulk_iteration clientW4 ["001", "002", "003", "004"] 2 = .ok rs
      ∧ rs.map (fun r => r.inputs) = [["001", "002"], ["003", "004"]]
      ∧ (∀ r ∈ rs, r.protect_response = protect_bulk clientW4 r.inputs)
      ∧ (rs.getD 1 (runBulkBatch clientW4 [])).protect_response.status_code
          = some 500
      ∧ (rs.getD 1 (runBulkBatch clientW4 [])).protect_response.is_success
          = false
      ∧ (rs.getD 0 (runBulkBatch clientW4 [])).protect_response.is_success
          = true := by
  obtain ⟨rs, h1, h2, _h3, _h4, _h5, h6⟩ :=
    C4_bulk_batches clientW4 ["001", "002", "003", "004"] 2 (by decide)
  have hrs' : rs = (chunks 2 ["001", "002", "003", "004"]).map
      (runBulkBatch clientW4) := by
    have h1' := h1
    unfold run_bulk_iteration at h1'
    rw [if_neg (by omega : ¬(2 = 0))] at h1'
    exact (Except.ok.inj h1').symm
  refine ⟨rs, h1, ?_, fun r hr => (h6 r hr).1, ?_, ?_, ?_⟩
  · rw [h2]
    rfl
  · rw [hrs']
    rfl
  · rw [hrs']
    decide
  · rw [hrs']
    decide

/-- C10: calling `run_bulk_iteration` with batch size 0 fails with the
zero-step-range `ValueError` (modelled as `Except.error`) for every input
list, the empty one included. -/
theorem C10_zero_batch_size_error (c : Client) (inputs : List String) :
    run_bulk_iteration c inputs 0 = .error "range() arg 3 must not be zero" :=
  rfl
